import Mathlib

/-!
Verification of the rrect_physics 2D physics core against its specification.

The embedding models the source files `src/components.rs`, `src/spatial_grid.rs`
and `src/lib.rs`.  `f32` values are modelled as exact rationals (the scenarios of
the specification only involve small dyadic values, on which `f32` arithmetic is
exact); the single place where a square root is computed (the rounded-corner
branch of the narrow-phase test, and the velocity clamp) is modelled by an
explicit square-root parameter, respectively by `Real.sqrt`.  Entities are
modelled by naturals, `Vec2` by `ℚ × ℚ`, `IVec2` by `ℤ × ℤ`, and the hash maps
of the source by functions into `Option`.  Hash-map/hash-set iteration order is
unspecified in the source, so every pass that iterates a map takes the
iteration order as an explicit parameter.
-/

/-- A 2D vector of the physics world (`bevy_math::Vec2`, modelled exactly). -/
abbrev Vec2Q : Type := ℚ × ℚ

/-- Componentwise multiplication of two vectors (`Vec2 * Vec2` in glam). -/
def v2mul (a b : Vec2Q) : Vec2Q := (a.1 * b.1, a.2 * b.2)

/-- The sign convention of `f32::signum`: `1.0` for non-negative (including
`+0.0`), `-1.0` for negative.  (`offset` components in the resolver are never
`NaN` in this model.) -/
def sgnF (q : ℚ) : ℚ := if q < 0 then -1 else 1

/-- `ColliderType` from `src/components.rs`: Sensor (no response), Static
(never moves), or Dynamic with a mass. -/
inductive ColliderType where
  | Sensor : ColliderType
  | Static : ColliderType
  | Dynamic (mass : ℚ) : ColliderType
deriving DecidableEq

/-- Whether a collider type is `Dynamic(_)` (the `matches!` test in the source). -/
def ColliderType.isDynamic : ColliderType → Bool
  | .Dynamic _ => true
  | _ => false

/-- `Collider` from `src/components.rs`: a rectangle with rounded corners. -/
structure Collider where
  size : Vec2Q
  radius : ℚ
  ctype : ColliderType
deriving DecidableEq

/-- `Force` from `src/components.rs`. -/
structure Force where
  id : String
  force : Vec2Q
  active : Bool
deriving DecidableEq

/-- `PartialForce` from `src/components.rs`: a sparse force-update request. -/
structure PartialForce where
  id : String
  force : Option Vec2Q
  active : Option Bool
deriving DecidableEq

/-- `Force::mix` from `src/components.rs`: keep the existing vector/flag unless
the partial provides one. -/
def Force.mix (f : Force) (p : PartialForce) : Force :=
  { id := f.id
    force := p.force.getD f.force
    active := p.active.getD f.active }

/-- `impl From<PartialForce> for Force` from `src/components.rs`. -/
def Force.ofPartial (p : PartialForce) : Force :=
  { id := p.id
    force := p.force.getD (0, 0)
    active := p.active.getD false }

/-- Lookup in the force map (`HashMap<String, Force>` modelled as an
association list of its entries). -/
def lookupForce : List (String × Force) → String → Option Force
  | [], _ => none
  | (k, v) :: rest, i => if k = i then some v else lookupForce rest i

/-- `HashMap::insert`: replace the value stored under an existing key, or add a
new entry. -/
def insertForce : List (String × Force) → String → Force → List (String × Force)
  | [], i, v => [(i, v)]
  | (k, v') :: rest, i, v =>
      if k = i then (k, v) :: rest else (k, v') :: insertForce rest i v

/-- `Movement` from `src/components.rs`. -/
structure Movement where
  velocity : Vec2Q
  forces : List (String × Force)
  damping : Vec2Q

/-- `Movement::apply_force` from `src/components.rs`. -/
def Movement.apply_force (m : Movement) (p : PartialForce) : Movement :=
  let i := p.id
  let new_force :=
    match lookupForce m.forces i with
    | some old_force => old_force.mix p
    | none => Force.ofPartial p
  { m with forces := insertForce m.forces i new_force }

/-- `Movement::apply_damping` from `src/components.rs`: every inactive force's
vector is multiplied componentwise by `damping * dt`. -/
def Movement.apply_damping (m : Movement) (dt : ℚ) : Movement :=
  { m with forces := m.forces.map fun kf =>
      (kf.1,
        if kf.2.active then kf.2
        else { kf.2 with force := v2mul kf.2.force (v2mul m.damping (dt, dt)) }) }

/-- `Movement::MAX_VELOCITY` from `src/components.rs`. -/
def maxVelocity : ℚ := 256

/-- The force-summation loop of `update_velocity_and_predict` in `src/lib.rs`:
`vel.velocity += force.force * dt` over all stored forces. -/
def sumForcesTimesDt (forces : List (String × Force)) (dt : ℚ) : Vec2Q :=
  forces.foldl (fun acc kf => (acc.1 + kf.2.force.1 * dt, acc.2 + kf.2.force.2 * dt)) (0, 0)

/-- glam's `Vec2::clamp_length_max`: if the squared length exceeds `max * max`,
rescale the vector to length `max` (using a real square root), else keep it. -/
noncomputable def clampLengthMax (v : ℝ × ℝ) (m : ℝ) : ℝ × ℝ :=
  if m * m < v.1 ^ 2 + v.2 ^ 2 then
    ((m / Real.sqrt (v.1 ^ 2 + v.2 ^ 2)) * v.1, (m / Real.sqrt (v.1 ^ 2 + v.2 ^ 2)) * v.2)
  else v

/-- One step of `update_velocity_and_predict` from `src/lib.rs` for a single
entity: reset velocity, damp, recompute velocity as the sum of forces times
`dt`, clamp its length to `MAX_VELOCITY * dt`, add it to the position.
Returns the damped movement (whose stored forces persist), the clamped
velocity and the new position (the last two real-valued because of the clamp's
square root). -/
noncomputable def update_velocity_and_predict (m : Movement) (pos : Vec2Q) (dt : ℚ) :
    Movement × (ℝ × ℝ) × (ℝ × ℝ) :=
  let damped := m.apply_damping dt
  let s := sumForcesTimesDt damped.forces dt
  let vel := clampLengthMax ((s.1 : ℝ), (s.2 : ℝ)) (((maxVelocity * dt : ℚ) : ℝ))
  (damped, vel, ((pos.1 : ℝ) + vel.1, (pos.2 : ℝ) + vel.2))

/-- `SpatialHashGrid` from `src/spatial_grid.rs`; the two hash maps are
modelled as functions into `Option` (so that a key being absent is
distinguished from a key mapped to an empty set, exactly as in the source). -/
structure SpatialHashGrid where
  cell_size : ℚ
  grid_to_ent : ℤ × ℤ → Option (Finset ℕ)
  ent_to_grid : ℕ → Option (Finset (ℤ × ℤ))

/-- `SpatialHashGrid::default()`: default cell size 20, both maps empty. -/
def emptyGrid : SpatialHashGrid :=
  { cell_size := 20
    grid_to_ent := fun _ => none
    ent_to_grid := fun _ => none }

/-- `SpatialHashGrid::find_cells` from `src/spatial_grid.rs`: all integer cells
overlapped by the axis-aligned box `pos ± size/2`. -/
def SpatialHashGrid.find_cells (g : SpatialHashGrid) (pos : Vec2Q) (coll : Collider) :
    Finset (ℤ × ℤ) :=
  let half : Vec2Q := (coll.size.1 * (1 / 2), coll.size.2 * (1 / 2))
  let max_bounds : Vec2Q := (pos.1 + half.1, pos.2 + half.2)
  let min_bounds : Vec2Q := (pos.1 - half.1, pos.2 - half.2)
  let min_cell : ℤ × ℤ := (⌊min_bounds.1 / g.cell_size⌋, ⌊min_bounds.2 / g.cell_size⌋)
  let max_cell : ℤ × ℤ := (⌊max_bounds.1 / g.cell_size⌋, ⌊max_bounds.2 / g.cell_size⌋)
  Finset.Icc min_cell.1 max_cell.1 ×ˢ Finset.Icc min_cell.2 max_cell.2

/-- `SpatialHashGrid::insert_or_update` from `src/spatial_grid.rs`.  If the
covering cell set is unchanged nothing is mutated; otherwise the entity is
removed from the buckets of its previous cells (buckets keep their keys even
when emptied) and inserted into the buckets of the new cells. -/
def SpatialHashGrid.insert_or_update (g : SpatialHashGrid) (ent : ℕ) (pos : Vec2Q)
    (coll : Collider) : SpatialHashGrid :=
  let cells := g.find_cells pos coll
  let existing_cells := (g.ent_to_grid ent).getD ∅
  if existing_cells = cells then g
  else
    let after_remove : ℤ × ℤ → Option (Finset ℕ) := fun c =>
      match g.grid_to_ent c with
      | some s => some (if c ∈ existing_cells then s.erase ent else s)
      | none => none
    { cell_size := g.cell_size
      ent_to_grid := fun e => if e = ent then some cells else g.ent_to_grid e
      grid_to_ent := fun c =>
        if c ∈ cells then some (insert ent ((after_remove c).getD ∅)) else after_remove c }

/-- `SpatialHashGrid::remove` from `src/spatial_grid.rs`: drop the entity's
entry and erase it from the buckets of its recorded cells. -/
def SpatialHashGrid.remove (g : SpatialHashGrid) (ent : ℕ) : SpatialHashGrid :=
  match g.ent_to_grid ent with
  | none => g
  | some grid_set =>
      { cell_size := g.cell_size
        ent_to_grid := fun e => if e = ent then none else g.ent_to_grid e
        grid_to_ent := fun c =>
          match g.grid_to_ent c with
          | some s => some (if c ∈ grid_set then s.erase ent else s)
          | none => none }

/-- `SpatialHashGrid::iter` from `src/spatial_grid.rs` (the neighbours query):
`None` when the entity is untracked, otherwise the union of the buckets of all
cells the entity occupies.  The source loops over the cell set and returns
`None` as soon as a visited cell has no bucket, discarding the partial union;
since the visiting order does not change whether some bucket is missing nor
the full union, this is equivalently the test below. -/
def SpatialHashGrid.iter (g : SpatialHashGrid) (ent : ℕ) : Option (Finset ℕ) :=
  match g.ent_to_grid ent with
  | none => none
  | some grid_set =>
      if ∀ c ∈ grid_set, g.grid_to_ent c ≠ none then
        some (grid_set.biUnion fun c => (g.grid_to_ent c).getD ∅)
      else none

/-- A grid operation: the two mutating entry points of `SpatialHashGrid`. -/
inductive GridOp where
  | upsert (ent : ℕ) (pos : Vec2Q) (coll : Collider) : GridOp
  | del (ent : ℕ) : GridOp

/-- Apply one grid operation. -/
def applyOp (g : SpatialHashGrid) : GridOp → SpatialHashGrid
  | .upsert ent pos coll => g.insert_or_update ent pos coll
  | .del ent => g.remove ent

/-- Apply a sequence of grid operations starting from the default grid. -/
def applyOps (ops : List GridOp) : SpatialHashGrid :=
  ops.foldl applyOp emptyGrid

/-- An operation is good when any inserted collider has non-negative extent
(all colliders of the specification satisfy this: `radius * 2 <= size`). -/
def GoodOp : GridOp → Prop
  | .upsert _ _ coll => 0 ≤ coll.size.1 ∧ 0 ≤ coll.size.2
  | .del _ => True

instance : DecidablePred GoodOp := fun op =>
  match op with
  | .upsert _ _ coll => inferInstanceAs (Decidable (0 ≤ coll.size.1 ∧ 0 ≤ coll.size.2))
  | .del _ => inferInstanceAs (Decidable True)

/-- Membership of an entity in the bucket of cell `c` (`grid_to_entities`). -/
def memBucket (g : SpatialHashGrid) (e : ℕ) (c : ℤ × ℤ) : Prop :=
  ∃ s, g.grid_to_ent c = some s ∧ e ∈ s

/-- Membership of a cell in an entity's recorded cell set (`entity_to_cells`). -/
def memCells (g : SpatialHashGrid) (e : ℕ) (c : ℤ × ℤ) : Prop :=
  ∃ t, g.ent_to_grid e = some t ∧ c ∈ t

/-- The dual-index invariant of the specification: the two maps are exact
inverses of each other. -/
def InverseMaps (g : SpatialHashGrid) : Prop :=
  ∀ e c, memBucket g e c ↔ memCells g e c

/-- Every cell recorded for some entity has a bucket (keys of `grid_to_ent`
are never deleted once created). -/
def BucketsPresent (g : SpatialHashGrid) : Prop :=
  ∀ e t, g.ent_to_grid e = some t → ∀ c ∈ t, g.grid_to_ent c ≠ none

/-- Every tracked entity occupies at least one cell. -/
def CellsNonempty (g : SpatialHashGrid) : Prop :=
  ∀ e t, g.ent_to_grid e = some t → t.Nonempty

/-- The per-entity snapshot taken at the start of `check_collisions_and_resolve`
in `src/lib.rs`: `detection_data` maps every live entity to its position and
collider. -/
abbrev DetectionData : Type := ℕ → Option (Vec2Q × Collider)

/-- The state threaded through the collision-resolution pass: the per-tick set
of already-checked (canonical) pairs, the `dynamic_positions` override map, and
the list of emitted `CollisionMessage(a, b)` events. -/
structure PassState where
  checked : Finset (ℕ × ℕ)
  dyn : ℕ → Option Vec2Q
  events : List (ℕ × ℕ)

/-- The canonical unordered form of a pair, as computed by the source:
`if entity_a < entity_b { (a, b) } else { (b, a) }`. -/
def canonPair (p : ℕ × ℕ) : ℕ × ℕ :=
  if p.1 < p.2 then p else (p.2, p.1)

/-- The prefill of `dynamic_positions`: every `Dynamic` entity starts with its
snapshot position as its override. -/
def prefillDyn (data : DetectionData) : ℕ → Option Vec2Q :=
  fun e =>
    match data e with
    | some (p, c) => if c.ctype.isDynamic then some p else none
    | none => none

/-- The narrow-phase overlap test of `check_collisions_and_resolve`
(`src/lib.rs` lines 260-292), a pure function of the two effective positions
and colliders: broad AABB reject, then either the inner-rectangle case or the
rounded-corner circle case.  `sqrtQ` stands for the `f32` square root used on
`dist_sq` in the corner case (the scenarios of the specification all have
radius 0 and never reach it).  Returns the MTV when an overlap is found. -/
def overlapTest (sqrtQ : ℚ → ℚ) (pos_a : Vec2Q) (coll_a : Collider) (pos_b : Vec2Q)
    (coll_b : Collider) : Option Vec2Q :=
  let offset : Vec2Q := (pos_b.1 - pos_a.1, pos_b.2 - pos_a.2)
  let offset_abs : Vec2Q := (|offset.1|, |offset.2|)
  let avg_size : Vec2Q :=
    ((coll_a.size.1 + coll_b.size.1) * (1 / 2), (coll_a.size.2 + coll_b.size.2) * (1 / 2))
  if avg_size.1 ≤ offset_abs.1 ∨ avg_size.2 ≤ offset_abs.2 then none
  else
    let radii := coll_a.radius + coll_b.radius
    let dist : Vec2Q := (offset_abs.1 - avg_size.1 + radii, offset_abs.2 - avg_size.2 + radii)
    if dist.1 < 0 ∨ dist.2 < 0 then
      let overlap : Vec2Q := (avg_size.1 - offset_abs.1, avg_size.2 - offset_abs.2)
      if overlap.1 < overlap.2 then some (overlap.1 * sgnF offset.1, 0)
      else some (0, overlap.2 * sgnF offset.2)
    else
      let dist_sq := dist.1 ^ 2 + dist.2 ^ 2
      if radii * radii < dist_sq then none
      else
        let dist_length := sqrtQ dist_sq
        some (dist.1 / dist_length * (radii - dist_length) * sgnF offset.1,
              dist.2 / dist_length * (radii - dist_length) * sgnF offset.2)

/-- The `pos += pending override` read of the source (`pos_a.0 += pos` /
`pos_b.0 += pos` in `check_collisions_and_resolve`): the override, when
present, is added to the local position. -/
def dynRead (dyn : ℕ → Option Vec2Q) (e : ℕ) (q : Vec2Q) : Vec2Q :=
  match dyn e with
  | some p => (q.1 + p.1, q.2 + p.2)
  | none => q

/-- One iteration of the inner (neighbour) loop of
`check_collisions_and_resolve` for initiating entity `a` with collider
`coll_a`.  The folded state carries, besides the `PassState`, the local
`pos_a` variable of the source: it is bound once per outer iteration and the
source's `pos_a.0 += pos` accumulates into it across inner iterations. -/
def processPair (data : DetectionData) (sqrtQ : ℚ → ℚ) (a : ℕ) (coll_a : Collider)
    (s : PassState × Vec2Q) (b : ℕ) : PassState × Vec2Q :=
  match data b with
  | none => s
  | some (pb, coll_b) =>
      if a = b then s
      else
        let pair := canonPair (a, b)
        if pair ∈ s.1.checked then s
        else
          let checked := insert pair s.1.checked
          let pos_a : Vec2Q := dynRead s.1.dyn a s.2
          let pos_b : Vec2Q := dynRead s.1.dyn b pb
          match overlapTest sqrtQ pos_a coll_a pos_b coll_b with
          | none => (⟨checked, s.1.dyn, s.1.events⟩, pos_a)
          | some mtv =>
              let events := s.1.events ++ [(a, b)]
              match coll_a.ctype, coll_b.ctype with
              | .Dynamic _, .Static =>
                  let dyn := fun e =>
                    if e = a then
                      some (((s.1.dyn a).getD pos_a).1 - mtv.1,
                            ((s.1.dyn a).getD pos_a).2 - mtv.2)
                    else s.1.dyn e
                  (⟨checked, dyn, events⟩, pos_a)
              | .Dynamic mass_a, .Dynamic mass_b =>
                  let total_mass := mass_a + mass_b
                  let mass_share_a := mass_a / total_mass
                  let mass_share_b := mass_b / total_mass
                  let dyn_a := fun e =>
                    if e = a then
                      some (((s.1.dyn a).getD pos_a).1 - mtv.1 * mass_share_b,
                            ((s.1.dyn a).getD pos_a).2 - mtv.2 * mass_share_b)
                    else s.1.dyn e
                  let dyn_b := fun e =>
                    if e = b then
                      some (((dyn_a b).getD pos_b).1 + mtv.1 * mass_share_a,
                            ((dyn_a b).getD pos_b).2 + mtv.2 * mass_share_a)
                    else dyn_a e
                  (⟨checked, dyn_b, events⟩, pos_a)
              | _, _ => (⟨checked, s.1.dyn, events⟩, pos_a)

/-- One iteration of the outer loop of `check_collisions_and_resolve` for
entity `a`: skip Static initiators, skip entities the grid does not track,
otherwise fold the neighbour loop over the entity's neighbour set.  `no a`
gives the iteration order of the neighbour `HashSet` (only actual members are
visited). -/
def processEntity (data : DetectionData) (g : SpatialHashGrid) (sqrtQ : ℚ → ℚ)
    (no : ℕ → List ℕ) (st : PassState) (a : ℕ) : PassState :=
  match data a with
  | none => st
  | some (pa, coll_a) =>
      if coll_a.ctype = .Static then st
      else
        match g.iter a with
        | none => st
        | some neighbors =>
            (((no a).filter fun b => decide (b ∈ neighbors)).foldl
              (processPair data sqrtQ a coll_a) (st, pa)).1

/-- The whole `check_collisions_and_resolve` pass of `src/lib.rs` (before the
final write-back): fold the outer loop over the iteration order `eo` of
`detection_data`, starting from an empty checked set, the prefilled
`dynamic_positions`, and no events. -/
def runPass (data : DetectionData) (g : SpatialHashGrid) (sqrtQ : ℚ → ℚ)
    (eo : List ℕ) (no : ℕ → List ℕ) : PassState :=
  eo.foldl (processEntity data g sqrtQ no) ⟨∅, prefillDyn data, []⟩

/-- The final write-back loop of `check_collisions_and_resolve`: every entity
with a pending override gets its position replaced by the override value. -/
def finalPositions (data : DetectionData) (st : PassState) : ℕ → Option Vec2Q :=
  fun e =>
    match data e with
    | some (p, _) => some ((st.dyn e).getD p)
    | none => none

/-- The effective position at which the source first evaluates an entity of a
fresh pass: its snapshot position plus its pending override — because of the
`pos_a.0 += pos` additions, a `Dynamic` entity is evaluated at twice its
snapshot position. -/
def effPos (p : Vec2Q) (c : Collider) : Vec2Q :=
  if c.ctype.isDynamic then (p.1 + p.1, p.2 + p.2) else p

theorem lookupForce_insertForce (l : List (String × Force)) (i : String) (v : Force) :
    lookupForce (insertForce l i v) i = some v := by
  induction l with
  | nil => simp [insertForce, lookupForce]
  | cons kv rest ih =>
      obtain ⟨k, w⟩ := kv
      by_cases h : k = i
      · simp [insertForce, h, lookupForce]
      · simp [insertForce, h, lookupForce, ih]

theorem lookupForce_map_values (l : List (String × Force)) (h : Force → Force) (i : String) :
    lookupForce (l.map fun kf => (kf.1, h kf.2)) i = (lookupForce l i).map h := by
  induction l with
  | nil => simp [lookupForce]
  | cons kv rest ih =>
      obtain ⟨k, w⟩ := kv
      by_cases hk : k = i
      · simp [lookupForce, hk]
      · simp [lookupForce, hk, ih]

theorem lookupForce_apply_damping (m : Movement) (dt : ℚ) (i : String) :
    lookupForce (m.apply_damping dt).forces i =
      (lookupForce m.forces i).map fun f =>
        if f.active then f
        else { f with force := v2mul f.force (v2mul m.damping (dt, dt)) } := by
  unfold Movement.apply_damping
  exact lookupForce_map_values m.forces
    (fun f => if f.active then f
      else { f with force := v2mul f.force (v2mul m.damping (dt, dt)) }) i

theorem apply_damping_damping (m : Movement) (dt : ℚ) :
    (m.apply_damping dt).damping = m.damping := rfl

theorem iterate_damping_damping (m : Movement) (dt : ℚ) (n : ℕ) :
    (((fun mm => mm.apply_damping dt)^[n]) m).damping = m.damping := by
  induction n with
  | zero => rfl
  | succ n ih => rw [Function.iterate_succ_apply', apply_damping_damping, ih]

/-- C6: `apply_force` merges a partial force into an existing entry keyed by
`partial.id` by keeping the existing vector/flag unless the partial provides
one, and materializes a missing entry with defaults zero-vector/inactive; the
result is stored under `partial.id`. -/
theorem c6_apply_force_spec (m : Movement) (p : PartialForce) :
    (∀ old, lookupForce m.forces p.id = some old →
        lookupForce (m.apply_force p).forces p.id =
          some ⟨old.id, p.force.getD old.force, p.active.getD old.active⟩)
    ∧ (lookupForce m.forces p.id = none →
        lookupForce (m.apply_force p).forces p.id =
          some ⟨p.id, p.force.getD (0, 0), p.active.getD false⟩) := by
  constructor
  · intro old h
    unfold Movement.apply_force
    simp only [h]
    exact lookupForce_insertForce _ _ _
  · intro h
    unfold Movement.apply_force
    simp only [h]
    exact lookupForce_insertForce _ _ _

/-- Witness for C6: a movement with one stored force `"f" = ((1,2), inactive)`
receives a partial update with only the `active` field set; the stored vector
is kept and the flag replaced. -/
theorem c6_apply_force_spec_witness :
    lookupForce (⟨(0, 0), [("f", ⟨"f", (1, 2), false⟩)], (0, 0)⟩ : Movement).forces "f" =
        some ⟨"f", (1, 2), false⟩
    ∧ lookupForce ((⟨(0, 0), [("f", ⟨"f", (1, 2), false⟩)], (0, 0)⟩ : Movement).apply_force
          ⟨"f", none, some true⟩).forces "f" =
        some ⟨"f", (1, 2), true⟩ :=
  ⟨by decide,
    (c6_apply_force_spec ⟨(0, 0), [("f", ⟨"f", (1, 2), false⟩)], (0, 0)⟩
      ⟨"f", none, some true⟩).1 ⟨"f", (1, 2), false⟩ (by decide)⟩

/-- Counterexample for C7: with `damping = (-1,-1)` and `dt = 1`, one
application of `apply_damping` turns the inactive force vector `(1,1)` into
`(-1,-1)`: the sign of both components flips, so repeated applications do not
keep signs (nor converge toward zero for `|damping*dt| >= 1`). -/
theorem c7_damping_counterexample :
    lookupForce ((⟨(0, 0), [("f", ⟨"f", (1, 1), false⟩)], (-1, -1)⟩ : Movement).apply_damping
        1).forces "f" = some ⟨"f", (-1, -1), false⟩
    ∧ (0 : ℚ) < 1 ∧ (-1 : ℚ) < 0 := by
  with_unfolding_all decide

/-- C7 (amended): `apply_damping` multiplies every inactive force vector
componentwise by `k = damping * dt` and leaves active forces unchanged;
provided each component of `k` lies in `[0, 1)`, after `n` applications an
inactive vector `v` is exactly `(v.1 * k.1 ^ n, v.2 * k.2 ^ n)`, the sign of
each component never flips, and the magnitudes decrease monotonically
(geometrically) toward zero. -/
theorem c7_damping_amended (m : Movement) (dt : ℚ) (i : String) (f : Force)
    (hf : lookupForce m.forces i = some f) (hinact : f.active = false)
    (k1 k2 : ℚ) (hk1 : k1 = m.damping.1 * dt) (hk2 : k2 = m.damping.2 * dt)
    (hk1n : 0 ≤ k1) (hk1l : k1 < 1) (hk2n : 0 ≤ k2) (hk2l : k2 < 1) :
    (∀ j g, lookupForce m.forces j = some g → g.active = true →
        lookupForce (m.apply_damping dt).forces j = some g)
    ∧ (∀ n : ℕ, lookupForce (((fun mm => mm.apply_damping dt)^[n]) m).forces i =
        some { f with force := (f.force.1 * k1 ^ n, f.force.2 * k2 ^ n) })
    ∧ (∀ n : ℕ,
        (0 ≤ f.force.1 → 0 ≤ f.force.1 * k1 ^ n) ∧ (f.force.1 ≤ 0 → f.force.1 * k1 ^ n ≤ 0)
        ∧ (0 ≤ f.force.2 → 0 ≤ f.force.2 * k2 ^ n) ∧ (f.force.2 ≤ 0 → f.force.2 * k2 ^ n ≤ 0))
    ∧ (∀ n : ℕ, |f.force.1 * k1 ^ (n + 1)| ≤ |f.force.1 * k1 ^ n|
        ∧ |f.force.2 * k2 ^ (n + 1)| ≤ |f.force.2 * k2 ^ n|) := by
  refine ⟨?_, ?_, ?_, ?_⟩
  · intro j g hg hact
    rw [lookupForce_apply_damping, hg]
    simp [hact]
  · intro n
    induction n with
    | zero =>
        simpa using hf
    | succ n ih =>
        rw [Function.iterate_succ_apply', lookupForce_apply_damping, ih]
        have h1 : f.force.1 * k1 ^ n * (m.damping.1 * dt) = f.force.1 * k1 ^ (n + 1) := by
          rw [← hk1]; ring
        have h2 : f.force.2 * k2 ^ n * (m.damping.2 * dt) = f.force.2 * k2 ^ (n + 1) := by
          rw [← hk2]; ring
        simp [iterate_damping_damping, hinact, v2mul, h1, h2]
  · intro n
    refine ⟨fun h => mul_nonneg h (pow_nonneg hk1n n),
      fun h => mul_nonpos_of_nonpos_of_nonneg h (pow_nonneg hk1n n),
      fun h => mul_nonneg h (pow_nonneg hk2n n),
      fun h => mul_nonpos_of_nonpos_of_nonneg h (pow_nonneg hk2n n)⟩
  · intro n
    constructor
    · rw [pow_succ, ← mul_assoc, abs_mul]
      calc |f.force.1 * k1 ^ n| * |k1| ≤ |f.force.1 * k1 ^ n| * 1 := by
              apply mul_le_mul_of_nonneg_left _ (abs_nonneg _)
              rw [abs_of_nonneg hk1n]; exact le_of_lt hk1l
        _ = |f.force.1 * k1 ^ n| := mul_one _
    · rw [pow_succ, ← mul_assoc, abs_mul]
      calc |f.force.2 * k2 ^ n| * |k2| ≤ |f.force.2 * k2 ^ n| * 1 := by
              apply mul_le_mul_of_nonneg_left _ (abs_nonneg _)
              rw [abs_of_nonneg hk2n]; exact le_of_lt hk2l
        _ = |f.force.2 * k2 ^ n| := mul_one _

/-- Witness for C7: a movement with inactive force `(2,-3)` and damping
`(1/2, 1/2)` at `dt = 1`; after one application the vector is halved
componentwise. -/
theorem c7_damping_amended_witness :
    lookupForce (⟨(0, 0), [("f", ⟨"f", (2, -3), false⟩)], (1 / 2, 1 / 2)⟩ : Movement).forces "f" =
        some ⟨"f", (2, -3), false⟩
    ∧ (⟨"f", (2, -3), false⟩ : Force).active = false
    ∧ ((1 : ℚ) / 2) = ((1 : ℚ) / 2, (1 : ℚ) / 2).1 * 1
    ∧ ((1 : ℚ) / 2) = ((1 : ℚ) / 2, (1 : ℚ) / 2).2 * 1
    ∧ (0 : ℚ) ≤ 1 / 2 ∧ ((1 : ℚ) / 2) < 1
    ∧ lookupForce (((fun mm => mm.apply_damping 1)^[1])
          (⟨(0, 0), [("f", ⟨"f", (2, -3), false⟩)], (1 / 2, 1 / 2)⟩ : Movement)).forces "f" =
        some ⟨"f", ((2 : ℚ) * (1 / 2) ^ 1, (-3 : ℚ) * (1 / 2) ^ 1), false⟩ :=
  ⟨by with_unfolding_all decide, rfl,
    by with_unfolding_all decide, by with_unfolding_all decide,
    by with_unfolding_all decide, by with_unfolding_all decide,
    (c7_damping_amended ⟨(0, 0), [("f", ⟨"f", (2, -3), false⟩)], (1 / 2, 1 / 2)⟩ 1 "f"
        ⟨"f", (2, -3), false⟩ (by with_unfolding_all decide) rfl (1 / 2) (1 / 2)
        (by with_unfolding_all decide) (by with_unfolding_all decide)
        (by with_unfolding_all decide) (by with_unfolding_all decide)
        (by with_unfolding_all decide) (by with_unfolding_all decide)).2.1 1⟩

theorem clampLengthMax_spec (v : ℝ × ℝ) (m : ℝ) (hm : 0 ≤ m) :
    Real.sqrt ((clampLengthMax v m).1 ^ 2 + (clampLengthMax v m).2 ^ 2) ≤ m
    ∧ ∃ c : ℝ, 0 ≤ c ∧ clampLengthMax v m = (c * v.1, c * v.2) := by
  unfold clampLengthMax
  by_cases h : m * m < v.1 ^ 2 + v.2 ^ 2
  · rw [if_pos h]
    have hL : 0 < v.1 ^ 2 + v.2 ^ 2 := lt_of_le_of_lt (mul_nonneg hm hm) h
    have hLne : v.1 ^ 2 + v.2 ^ 2 ≠ 0 := ne_of_gt hL
    have hs : 0 < Real.sqrt (v.1 ^ 2 + v.2 ^ 2) := Real.sqrt_pos.2 hL
    constructor
    · have hsq : Real.sqrt (v.1 ^ 2 + v.2 ^ 2) ^ 2 = v.1 ^ 2 + v.2 ^ 2 :=
        Real.sq_sqrt (le_of_lt hL)
      have hcalc : (m / Real.sqrt (v.1 ^ 2 + v.2 ^ 2) * v.1) ^ 2
          + (m / Real.sqrt (v.1 ^ 2 + v.2 ^ 2) * v.2) ^ 2 = m ^ 2 := by
        have hexp : (m / Real.sqrt (v.1 ^ 2 + v.2 ^ 2) * v.1) ^ 2
            + (m / Real.sqrt (v.1 ^ 2 + v.2 ^ 2) * v.2) ^ 2
            = m ^ 2 / Real.sqrt (v.1 ^ 2 + v.2 ^ 2) ^ 2 * (v.1 ^ 2 + v.2 ^ 2) := by
          ring
        rw [hexp, hsq, div_mul_cancel₀ _ hLne]
      rw [hcalc, Real.sqrt_sq hm]
    · exact ⟨m / Real.sqrt (v.1 ^ 2 + v.2 ^ 2),
        div_nonneg hm (le_of_lt hs), rfl⟩
  · rw [if_neg h]
    push_neg at h
    constructor
    · calc Real.sqrt (v.1 ^ 2 + v.2 ^ 2) ≤ Real.sqrt (m * m) := Real.sqrt_le_sqrt h
        _ = m := Real.sqrt_mul_self hm
    · exact ⟨1, zero_le_one, by simp⟩

/-- C5: one integration step recomputes the velocity from scratch as the sum
of the (damped) stored forces times `dt`, clamps it to magnitude at most
`256 * dt` preserving its direction, and adds exactly that velocity to the
position. -/
theorem c5_integration_spec (m : Movement) (pos : Vec2Q) (dt : ℚ) (hdt : 0 ≤ dt) :
    (update_velocity_and_predict m pos dt).2.1 =
        clampLengthMax (((sumForcesTimesDt (m.apply_damping dt).forces dt).1 : ℝ),
          ((sumForcesTimesDt (m.apply_damping dt).forces dt).2 : ℝ))
          (((maxVelocity * dt : ℚ) : ℝ))
    ∧ Real.sqrt ((update_velocity_and_predict m pos dt).2.1.1 ^ 2 +
        (update_velocity_and_predict m pos dt).2.1.2 ^ 2) ≤ 256 * (dt : ℝ)
    ∧ (∃ c : ℝ, 0 ≤ c ∧ (update_velocity_and_predict m pos dt).2.1 =
        (c * ((sumForcesTimesDt (m.apply_damping dt).forces dt).1 : ℝ),
         c * ((sumForcesTimesDt (m.apply_damping dt).forces dt).2 : ℝ)))
    ∧ (update_velocity_and_predict m pos dt).2.2 =
        ((pos.1 : ℝ) + (update_velocity_and_predict m pos dt).2.1.1,
         (pos.2 : ℝ) + (update_velocity_and_predict m pos dt).2.1.2) := by
  have hm : (0 : ℝ) ≤ ((maxVelocity * dt : ℚ) : ℝ) := by
    have : (0 : ℚ) ≤ maxVelocity * dt := mul_nonneg (by norm_num [maxVelocity]) hdt
    exact_mod_cast this
  obtain ⟨hb, c, hc0, hceq⟩ := clampLengthMax_spec
    (((sumForcesTimesDt (m.apply_damping dt).forces dt).1 : ℝ),
     ((sumForcesTimesDt (m.apply_damping dt).forces dt).2 : ℝ))
    (((maxVelocity * dt : ℚ) : ℝ)) hm
  have hcast : ((maxVelocity * dt : ℚ) : ℝ) = 256 * (dt : ℝ) := by
    push_cast [maxVelocity]; ring
  refine ⟨rfl, ?_, ⟨c, hc0, hceq⟩, rfl⟩
  rw [← hcast]
  exact hb

/-- Witness for C5: the empty movement at the origin with `dt = 1`. -/
theorem c5_integration_spec_witness :
    (0 : ℚ) ≤ 1
    ∧ ((update_velocity_and_predict ⟨(0, 0), [], (0, 0)⟩ (0, 0) 1).2.1 =
        clampLengthMax
          (((sumForcesTimesDt ((⟨(0, 0), [], (0, 0)⟩ : Movement).apply_damping 1).forces 1).1 : ℝ),
           ((sumForcesTimesDt ((⟨(0, 0), [], (0, 0)⟩ : Movement).apply_damping 1).forces 1).2 : ℝ))
          (((maxVelocity * 1 : ℚ) : ℝ))
      ∧ Real.sqrt ((update_velocity_and_predict ⟨(0, 0), [], (0, 0)⟩ (0, 0) 1).2.1.1 ^ 2 +
          (update_velocity_and_predict ⟨(0, 0), [], (0, 0)⟩ (0, 0) 1).2.1.2 ^ 2) ≤
            256 * ((1 : ℚ) : ℝ)
      ∧ (∃ c : ℝ, 0 ≤ c ∧ (update_velocity_and_predict ⟨(0, 0), [], (0, 0)⟩ (0, 0) 1).2.1 =
          (c * ((sumForcesTimesDt ((⟨(0, 0), [], (0, 0)⟩ : Movement).apply_damping 1).forces 1).1 : ℝ),
           c * ((sumForcesTimesDt ((⟨(0, 0), [], (0, 0)⟩ : Movement).apply_damping 1).forces 1).2 : ℝ)))
      ∧ (update_velocity_and_predict ⟨(0, 0), [], (0, 0)⟩ (0, 0) 1).2.2 =
          ((((0 : ℚ), (0 : ℚ)).1 : ℝ) + (update_velocity_and_predict ⟨(0, 0), [], (0, 0)⟩ (0, 0) 1).2.1.1,
           (((0 : ℚ), (0 : ℚ)).2 : ℝ) + (update_velocity_and_predict ⟨(0, 0), [], (0, 0)⟩ (0, 0) 1).2.1.2)) :=
  ⟨by decide, c5_integration_spec ⟨(0, 0), [], (0, 0)⟩ (0, 0) 1 (by decide)⟩

theorem insert_or_update_cell_size (g : SpatialHashGrid) (ent : ℕ) (pos : Vec2Q)
    (coll : Collider) : (g.insert_or_update ent pos coll).cell_size = g.cell_size := by
  simp only [SpatialHashGrid.insert_or_update]
  split <;> rfl

theorem find_cells_congr (g g' : SpatialHashGrid) (h : g'.cell_size = g.cell_size)
    (pos : Vec2Q) (coll : Collider) : g'.find_cells pos coll = g.find_cells pos coll := by
  unfold SpatialHashGrid.find_cells
  rw [h]

theorem insert_or_update_of_eq (g : SpatialHashGrid) (ent : ℕ) (pos : Vec2Q) (coll : Collider)
    (h : (g.ent_to_grid ent).getD ∅ = g.find_cells pos coll) :
    g.insert_or_update ent pos coll = g := by
  simp only [SpatialHashGrid.insert_or_update]
  rw [if_pos h]

theorem insert_or_update_ent_of_ne (g : SpatialHashGrid) (ent : ℕ) (pos : Vec2Q) (coll : Collider)
    (h : (g.ent_to_grid ent).getD ∅ ≠ g.find_cells pos coll) :
    (g.insert_or_update ent pos coll).ent_to_grid ent = some (g.find_cells pos coll) := by
  simp only [SpatialHashGrid.insert_or_update]
  rw [if_neg h]
  simp

/-- C9: `insert_or_update` is a no-op when the covering cell set is unchanged:
a second call with the same position and collider leaves the grid exactly as
after the first call. -/
theorem c9_insert_or_update_idempotent (g : SpatialHashGrid) (ent : ℕ) (pos : Vec2Q)
    (coll : Collider) :
    (g.insert_or_update ent pos coll).insert_or_update ent pos coll =
      g.insert_or_update ent pos coll := by
  by_cases h : (g.ent_to_grid ent).getD ∅ = g.find_cells pos coll
  · rw [insert_or_update_of_eq g ent pos coll h, insert_or_update_of_eq g ent pos coll h]
  · have hcs := insert_or_update_cell_size g ent pos coll
    have hfc := find_cells_congr g (g.insert_or_update ent pos coll) hcs pos coll
    have hent := insert_or_update_ent_of_ne g ent pos coll h
    apply insert_or_update_of_eq
    rw [hent, hfc]
    simp

/-- C10: removing an entity that is not tracked leaves the grid completely
unchanged. -/
theorem c10_remove_untracked (g : SpatialHashGrid) (ent : ℕ)
    (h : g.ent_to_grid ent = none) : g.remove ent = g := by
  unfold SpatialHashGrid.remove
  rw [h]

/-- Witness for C10: removing entity 0 from the default (empty) grid. -/
theorem c10_remove_untracked_witness :
    emptyGrid.ent_to_grid 0 = none ∧ emptyGrid.remove 0 = emptyGrid :=
  ⟨rfl, c10_remove_untracked emptyGrid 0 rfl⟩

/-- The bucket map after the removal loop of `insert_or_update` / `remove`:
the entity is erased from the buckets of the given cells; bucket keys are
kept. -/
def afterRemoveFun (g : SpatialHashGrid) (ent : ℕ) (existing : Finset (ℤ × ℤ)) :
    (ℤ × ℤ) → Option (Finset ℕ) := fun c =>
  match g.grid_to_ent c with
  | some s => some (if c ∈ existing then s.erase ent else s)
  | none => none

theorem insert_or_update_of_ne (g : SpatialHashGrid) (ent : ℕ) (pos : Vec2Q) (coll : Collider)
    (h : (g.ent_to_grid ent).getD ∅ ≠ g.find_cells pos coll) :
    g.insert_or_update ent pos coll =
      { cell_size := g.cell_size
        ent_to_grid := fun e => if e = ent then some (g.find_cells pos coll) else g.ent_to_grid e
        grid_to_ent := fun c =>
          if c ∈ g.find_cells pos coll then
            some (insert ent ((afterRemoveFun g ent ((g.ent_to_grid ent).getD ∅) c).getD ∅))
          else afterRemoveFun g ent ((g.ent_to_grid ent).getD ∅) c } := by
  simp only [SpatialHashGrid.insert_or_update, afterRemoveFun]
  rw [if_neg h]

theorem remove_untracked_eq (g : SpatialHashGrid) (ent : ℕ)
    (h : g.ent_to_grid ent = none) : g.remove ent = g := by
  unfold SpatialHashGrid.remove
  rw [h]

theorem remove_of_tracked (g : SpatialHashGrid) (ent : ℕ) (cells : Finset (ℤ × ℤ))
    (h : g.ent_to_grid ent = some cells) :
    g.remove ent =
      { cell_size := g.cell_size
        ent_to_grid := fun e => if e = ent then none else g.ent_to_grid e
        grid_to_ent := afterRemoveFun g ent cells } := by
  unfold SpatialHashGrid.remove afterRemoveFun
  rw [h]

theorem mem_getD_empty_iff (o : Option (Finset ℕ)) (e : ℕ) :
    e ∈ o.getD ∅ ↔ ∃ s, o = some s ∧ e ∈ s := by
  cases o <;> simp

theorem afterRemove_mem (g : SpatialHashGrid) (ent : ℕ) (existing : Finset (ℤ × ℤ))
    (e : ℕ) (c : ℤ × ℤ) :
    (∃ s, afterRemoveFun g ent existing c = some s ∧ e ∈ s) ↔
      memBucket g e c ∧ (c ∈ existing → e ≠ ent) := by
  unfold afterRemoveFun memBucket
  cases hg : g.grid_to_ent c with
  | none => simp
  | some s =>
      by_cases hc : c ∈ existing
      · simp only [hc, if_pos, Option.some.injEq, exists_eq_left', Finset.mem_erase,
          forall_const]
        tauto
      · simp [hc]

theorem memCells_mem_getD (g : SpatialHashGrid) (e : ℕ) (c : ℤ × ℤ) (h : memCells g e c) :
    c ∈ (g.ent_to_grid e).getD ∅ := by
  obtain ⟨t, ht, hct⟩ := h
  rw [ht]
  simpa using hct

theorem upsert_memBucket (g : SpatialHashGrid) (ent : ℕ) (pos : Vec2Q) (coll : Collider)
    (h : (g.ent_to_grid ent).getD ∅ ≠ g.find_cells pos coll) (e : ℕ) (c : ℤ × ℤ) :
    memBucket (g.insert_or_update ent pos coll) e c ↔
      (e = ent ∧ c ∈ g.find_cells pos coll) ∨
        (memBucket g e c ∧ (c ∈ (g.ent_to_grid ent).getD ∅ → e ≠ ent)) := by
  rw [insert_or_update_of_ne g ent pos coll h]
  constructor
  · rintro ⟨s, hs, hes⟩
    dsimp only at hs
    by_cases hc : c ∈ g.find_cells pos coll
    · rw [if_pos hc] at hs
      injection hs with hs'
      subst hs'
      rcases Finset.mem_insert.1 hes with he | he
      · exact Or.inl ⟨he, hc⟩
      · exact Or.inr ((afterRemove_mem g ent _ e c).1 ((mem_getD_empty_iff _ e).1 he))
    · rw [if_neg hc] at hs
      exact Or.inr ((afterRemove_mem g ent _ e c).1 ⟨s, hs, hes⟩)
  · intro hrhs
    rcases hrhs with ⟨he, hc⟩ | hmb
    · subst he
      refine ⟨insert e ((afterRemoveFun g e ((g.ent_to_grid e).getD ∅) c).getD ∅), ?_,
        Finset.mem_insert_self e _⟩
      dsimp only
      rw [if_pos hc]
    · by_cases hc : c ∈ g.find_cells pos coll
      · refine ⟨insert ent ((afterRemoveFun g ent ((g.ent_to_grid ent).getD ∅) c).getD ∅), ?_,
          Finset.mem_insert_of_mem ((mem_getD_empty_iff _ e).2
            ((afterRemove_mem g ent _ e c).2 hmb))⟩
        dsimp only
        rw [if_pos hc]
      · obtain ⟨s', hs', hes'⟩ := (afterRemove_mem g ent _ e c).2 hmb
        refine ⟨s', ?_, hes'⟩
        dsimp only
        rw [if_neg hc]
        exact hs'

theorem upsert_memCells (g : SpatialHashGrid) (ent : ℕ) (pos : Vec2Q) (coll : Collider)
    (h : (g.ent_to_grid ent).getD ∅ ≠ g.find_cells pos coll) (e : ℕ) (c : ℤ × ℤ) :
    memCells (g.insert_or_update ent pos coll) e c ↔
      (e = ent ∧ c ∈ g.find_cells pos coll) ∨ (e ≠ ent ∧ memCells g e c) := by
  rw [insert_or_update_of_ne g ent pos coll h]
  unfold memCells
  dsimp only
  by_cases he : e = ent
  · subst he
    rw [if_pos rfl]
    simp
  · rw [if_neg he]
    simp [he]

theorem inverse_emptyGrid : InverseMaps emptyGrid := by
  intro e c
  constructor
  · rintro ⟨s, hs, _⟩
    simp [emptyGrid] at hs
  · rintro ⟨t, ht, _⟩
    simp [emptyGrid] at ht

theorem inverse_insert_or_update (g : SpatialHashGrid) (hInv : InverseMaps g)
    (ent : ℕ) (pos : Vec2Q) (coll : Collider) :
    InverseMaps (g.insert_or_update ent pos coll) := by
  by_cases h : (g.ent_to_grid ent).getD ∅ = g.find_cells pos coll
  · rw [insert_or_update_of_eq g ent pos coll h]
    exact hInv
  · intro e c
    rw [upsert_memBucket g ent pos coll h e c, upsert_memCells g ent pos coll h e c]
    by_cases he : e = ent
    · subst he
      by_cases hc : c ∈ g.find_cells pos coll
      · tauto
      · have h1 : ¬ (memBucket g e c ∧ (c ∈ (g.ent_to_grid e).getD ∅ → e ≠ e)) := by
          rintro ⟨hmb, himp⟩
          exact himp (memCells_mem_getD g e c ((hInv e c).1 hmb)) rfl
        tauto
    · have h2 := hInv e c
      tauto

theorem inverse_remove (g : SpatialHashGrid) (hInv : InverseMaps g) (ent : ℕ) :
    InverseMaps (g.remove ent) := by
  cases h : g.ent_to_grid ent with
  | none =>
      rw [remove_untracked_eq g ent h]
      exact hInv
  | some cells =>
      rw [remove_of_tracked g ent cells h]
      intro e c
      constructor
      · rintro ⟨s, hs, hes⟩
        obtain ⟨hmb, himp⟩ := (afterRemove_mem g ent cells e c).1 ⟨s, hs, hes⟩
        have hmc := (hInv e c).1 hmb
        have he : e ≠ ent := by
          intro he
          subst he
          obtain ⟨t, ht, hct⟩ := hmc
          rw [h] at ht
          injection ht with ht'
          subst ht'
          exact himp hct rfl
        obtain ⟨t, ht, hct⟩ := hmc
        refine ⟨t, ?_, hct⟩
        dsimp only
        rw [if_neg he]
        exact ht
      · rintro ⟨t, ht, hct⟩
        dsimp only at ht
        by_cases he : e = ent
        · rw [if_pos he] at ht
          cases ht
        · rw [if_neg he] at ht
          exact (afterRemove_mem g ent cells e c).2
            ⟨(hInv e c).2 ⟨t, ht, hct⟩, fun _ => he⟩

/-- C2: for every sequence of `insert_or_update` / `remove` operations starting
from the default grid, the two internal maps remain exact inverses: an entity
is a member of `grid_to_entities[c]` iff `c` is a member of
`entity_to_cells[e]`. -/
theorem c2_grid_maps_inverse (ops : List GridOp) : InverseMaps (applyOps ops) := by
  unfold applyOps
  suffices h : ∀ g, InverseMaps g → InverseMaps (List.foldl applyOp g ops) from
    h emptyGrid inverse_emptyGrid
  induction ops with
  | nil =>
      intro g hg
      simpa using hg
  | cons op rest ih =>
      intro g hg
      simp only [List.foldl_cons]
      apply ih
      cases op with
      | upsert ent pos coll => exact inverse_insert_or_update g hg ent pos coll
      | del ent => exact inverse_remove g hg ent

theorem remove_cell_size (g : SpatialHashGrid) (ent : ℕ) :
    (g.remove ent).cell_size = g.cell_size := by
  cases h : g.ent_to_grid ent with
  | none => rw [remove_untracked_eq g ent h]
  | some cells => rw [remove_of_tracked g ent cells h]

theorem applyOp_cell_size (g : SpatialHashGrid) (op : GridOp) :
    (applyOp g op).cell_size = g.cell_size := by
  cases op with
  | upsert ent pos coll => exact insert_or_update_cell_size g ent pos coll
  | del ent => exact remove_cell_size g ent

theorem find_cells_nonempty (g : SpatialHashGrid) (pos : Vec2Q) (coll : Collider)
    (hcs : 0 < g.cell_size) (h1 : 0 ≤ coll.size.1) (h2 : 0 ≤ coll.size.2) :
    (g.find_cells pos coll).Nonempty := by
  unfold SpatialHashGrid.find_cells
  apply Finset.Nonempty.product
  · rw [Finset.nonempty_Icc]
    apply Int.floor_le_floor
    rw [div_le_div_iff_of_pos_right hcs]
    nlinarith
  · rw [Finset.nonempty_Icc]
    apply Int.floor_le_floor
    rw [div_le_div_iff_of_pos_right hcs]
    nlinarith

theorem afterRemoveFun_ne_none (g : SpatialHashGrid) (ent : ℕ) (existing : Finset (ℤ × ℤ))
    (c : ℤ × ℤ) (h : g.grid_to_ent c ≠ none) : afterRemoveFun g ent existing c ≠ none := by
  unfold afterRemoveFun
  cases hg : g.grid_to_ent c with
  | none => exact absurd hg h
  | some s => simp

theorem bucketsPresent_insert_or_update (g : SpatialHashGrid) (hbp : BucketsPresent g)
    (ent : ℕ) (pos : Vec2Q) (coll : Collider) :
    BucketsPresent (g.insert_or_update ent pos coll) := by
  by_cases h : (g.ent_to_grid ent).getD ∅ = g.find_cells pos coll
  · rw [insert_or_update_of_eq g ent pos coll h]
    exact hbp
  · rw [insert_or_update_of_ne g ent pos coll h]
    intro e t ht c hct
    dsimp only at ht ⊢
    by_cases hc : c ∈ g.find_cells pos coll
    · rw [if_pos hc]
      simp
    · rw [if_neg hc]
      apply afterRemoveFun_ne_none
      by_cases he : e = ent
      · rw [if_pos he] at ht
        injection ht with ht'
        subst ht'
        exact absurd hct hc
      · rw [if_neg he] at ht
        exact hbp e t ht c hct

theorem bucketsPresent_remove (g : SpatialHashGrid) (hbp : BucketsPresent g) (ent : ℕ) :
    BucketsPresent (g.remove ent) := by
  cases h : g.ent_to_grid ent with
  | none =>
      rw [remove_untracked_eq g ent h]
      exact hbp
  | some cells =>
      rw [remove_of_tracked g ent cells h]
      intro e t ht c hct
      dsimp only at ht ⊢
      by_cases he : e = ent
      · rw [if_pos he] at ht
        cases ht
      · rw [if_neg he] at ht
        exact afterRemoveFun_ne_none g ent cells c (hbp e t ht c hct)

theorem cellsNonempty_insert_or_update (g : SpatialHashGrid) (hcn : CellsNonempty g)
    (hcs : 0 < g.cell_size) (ent : ℕ) (pos : Vec2Q) (coll : Collider)
    (h1 : 0 ≤ coll.size.1) (h2 : 0 ≤ coll.size.2) :
    CellsNonempty (g.insert_or_update ent pos coll) := by
  by_cases h : (g.ent_to_grid ent).getD ∅ = g.find_cells pos coll
  · rw [insert_or_update_of_eq g ent pos coll h]
    exact hcn
  · rw [insert_or_update_of_ne g ent pos coll h]
    intro e t ht
    dsimp only at ht
    by_cases he : e = ent
    · rw [if_pos he] at ht
      injection ht with ht'
      subst ht'
      exact find_cells_nonempty g pos coll hcs h1 h2
    · rw [if_neg he] at ht
      exact hcn e t ht

theorem cellsNonempty_remove (g : SpatialHashGrid) (hcn : CellsNonempty g) (ent : ℕ) :
    CellsNonempty (g.remove ent) := by
  cases h : g.ent_to_grid ent with
  | none =>
      rw [remove_untracked_eq g ent h]
      exact hcn
  | some cells =>
      rw [remove_of_tracked g ent cells h]
      intro e t ht
      dsimp only at ht
      by_cases he : e = ent
      · rw [if_pos he] at ht
        cases ht
      · rw [if_neg he] at ht
        exact hcn e t ht

theorem bucketsPresent_emptyGrid : BucketsPresent emptyGrid := by
  intro e t ht
  simp [emptyGrid] at ht

theorem cellsNonempty_emptyGrid : CellsNonempty emptyGrid := by
  intro e t ht
  simp [emptyGrid] at ht

/-- The invariants of every grid reachable by a sequence of good operations. -/
theorem applyOps_invariants (ops : List GridOp) (hgood : ∀ op ∈ ops, GoodOp op) :
    InverseMaps (applyOps ops) ∧ BucketsPresent (applyOps ops)
    ∧ CellsNonempty (applyOps ops) ∧ (applyOps ops).cell_size = 20 := by
  unfold applyOps
  suffices h : ∀ g, InverseMaps g ∧ BucketsPresent g ∧ CellsNonempty g ∧ g.cell_size = 20 →
      InverseMaps (List.foldl applyOp g ops) ∧ BucketsPresent (List.foldl applyOp g ops)
      ∧ CellsNonempty (List.foldl applyOp g ops) ∧ (List.foldl applyOp g ops).cell_size = 20 from
    h emptyGrid ⟨inverse_emptyGrid, bucketsPresent_emptyGrid, cellsNonempty_emptyGrid, rfl⟩
  induction ops with
  | nil =>
      intro g hg
      simpa using hg
  | cons op rest ih =>
      intro g hg
      obtain ⟨hinv, hbp, hcn, hcs⟩ := hg
      have hop : GoodOp op := hgood op (List.mem_cons_self op rest)
      have hrest : ∀ o ∈ rest, GoodOp o := fun o ho => hgood o (List.mem_cons_of_mem op ho)
      simp only [List.foldl_cons]
      have hstep : InverseMaps (applyOp g op) ∧ BucketsPresent (applyOp g op)
          ∧ CellsNonempty (applyOp g op) ∧ (applyOp g op).cell_size = 20 := by
        cases op with
        | upsert ent pos coll =>
            obtain ⟨h1, h2⟩ := hop
            exact ⟨inverse_insert_or_update g hinv ent pos coll,
              bucketsPresent_insert_or_update g hbp ent pos coll,
              cellsNonempty_insert_or_update g hcn (by rw [hcs]; norm_num) ent pos coll h1 h2,
              by rw [applyOp_cell_size]; exact hcs⟩
        | del ent =>
            exact ⟨inverse_remove g hinv ent, bucketsPresent_remove g hbp ent,
              cellsNonempty_remove g hcn ent,
              by rw [applyOp_cell_size]; exact hcs⟩
      exact @ih hrest (applyOp g op) hstep

theorem iter_eq_none_iff (g : SpatialHashGrid) (hbp : BucketsPresent g) (e : ℕ) :
    g.iter e = none ↔ g.ent_to_grid e = none := by
  unfold SpatialHashGrid.iter
  cases h : g.ent_to_grid e with
  | none => simp
  | some t =>
      have hall : ∀ c ∈ t, g.grid_to_ent c ≠ none := fun c hc => hbp e t h c hc
      simp [if_pos hall]

theorem iter_tracked (g : SpatialHashGrid) (hbp : BucketsPresent g) (e : ℕ)
    (t : Finset (ℤ × ℤ)) (h : g.ent_to_grid e = some t) :
    g.iter e = some (t.biUnion fun c => (g.grid_to_ent c).getD ∅) := by
  unfold SpatialHashGrid.iter
  rw [h]
  dsimp only
  rw [if_pos (fun c hc => hbp e t h c hc)]

/-- C4: over any grid reachable by good operations, the neighbours query
returns `None` iff the entity is untracked; for a tracked entity it returns
the union of the buckets of the cells the entity occupies, and that union
contains the entity itself (hence is non-empty). -/
theorem c4_iter_spec (ops : List GridOp) (hgood : ∀ op ∈ ops, GoodOp op) (e : ℕ) :
    ((applyOps ops).iter e = none ↔ (applyOps ops).ent_to_grid e = none)
    ∧ ∀ t, (applyOps ops).ent_to_grid e = some t →
        (applyOps ops).iter e =
          some (t.biUnion fun c => ((applyOps ops).grid_to_ent c).getD ∅)
        ∧ e ∈ t.biUnion fun c => ((applyOps ops).grid_to_ent c).getD ∅ := by
  obtain ⟨hinv, hbp, hcn, hcs⟩ := applyOps_invariants ops hgood
  refine ⟨iter_eq_none_iff _ hbp e, ?_⟩
  intro t ht
  refine ⟨iter_tracked _ hbp e t ht, ?_⟩
  obtain ⟨c, hc⟩ := hcn e t ht
  obtain ⟨s, hs, hes⟩ := (hinv e c).2 ⟨t, ht, hc⟩
  apply Finset.mem_biUnion.2
  refine ⟨c, hc, ?_⟩
  rw [hs]
  simpa using hes

/-- Witness for C4: a single insertion of entity 0 with a unit square at the
origin; the query returns the union of its four cells' buckets, containing 0. -/
theorem c4_iter_spec_witness :
    (∀ op ∈ [GridOp.upsert 0 ((0 : ℚ), (0 : ℚ)) ⟨(1, 1), 0, ColliderType.Sensor⟩], GoodOp op)
    ∧ (applyOps [GridOp.upsert 0 ((0 : ℚ), (0 : ℚ)) ⟨(1, 1), 0, ColliderType.Sensor⟩]).ent_to_grid
        0 = some (((applyOps [GridOp.upsert 0 ((0 : ℚ), (0 : ℚ))
          ⟨(1, 1), 0, ColliderType.Sensor⟩]).ent_to_grid 0).getD ∅)
    ∧ ((applyOps [GridOp.upsert 0 ((0 : ℚ), (0 : ℚ)) ⟨(1, 1), 0, ColliderType.Sensor⟩]).iter 0 =
        some ((((applyOps [GridOp.upsert 0 ((0 : ℚ), (0 : ℚ))
            ⟨(1, 1), 0, ColliderType.Sensor⟩]).ent_to_grid 0).getD ∅).biUnion fun c =>
          ((applyOps [GridOp.upsert 0 ((0 : ℚ), (0 : ℚ))
            ⟨(1, 1), 0, ColliderType.Sensor⟩]).grid_to_ent c).getD ∅)
      ∧ 0 ∈ (((applyOps [GridOp.upsert 0 ((0 : ℚ), (0 : ℚ))
            ⟨(1, 1), 0, ColliderType.Sensor⟩]).ent_to_grid 0).getD ∅).biUnion fun c =>
          ((applyOps [GridOp.upsert 0 ((0 : ℚ), (0 : ℚ))
            ⟨(1, 1), 0, ColliderType.Sensor⟩]).grid_to_ent c).getD ∅) :=
  ⟨by decide, by with_unfolding_all rfl,
    (c4_iter_spec [GridOp.upsert 0 ((0 : ℚ), (0 : ℚ)) ⟨(1, 1), 0, ColliderType.Sensor⟩]
      (by decide) 0).2 _ (by with_unfolding_all rfl)⟩

/-- The detection snapshot of the static push-out scenario: entity 0 Static at
(0,0), entity 1 Dynamic (mass 1) at (0.5,0), both unit squares of radius 0. -/
def c1Data : DetectionData := fun e =>
  if e = 0 then some (((0 : ℚ), (0 : ℚ)), ⟨(1, 1), 0, ColliderType.Static⟩)
  else if e = 1 then some (((1 / 2 : ℚ), (0 : ℚ)), ⟨(1, 1), 0, ColliderType.Dynamic 1⟩)
  else none

/-- The grid refreshed with the two entities of the static push-out scenario. -/
def c1Grid : SpatialHashGrid :=
  (emptyGrid.insert_or_update 0 (0, 0) ⟨(1, 1), 0, ColliderType.Static⟩).insert_or_update 1
    (1 / 2, 0) ⟨(1, 1), 0, ColliderType.Dynamic 1⟩

/-- C1 (what the code actually does in the static push-out scenario): under
the intended reading an overlap exists at the snapshot positions (inner case,
MTV of magnitude 1/2 along x, which would push the Dynamic entity to (1,0)),
but the pass adds the pending override to the snapshot instead of replacing
it, so the Dynamic entity is evaluated at twice its position (1,0); the broad
AABB test then rejects, no `CollisionEvent` is emitted for any iteration
order, and both entities keep their positions ((0.5,0) and (0,0)). -/
theorem c1_static_pushout_scenario_on_code :
    overlapTest (fun _ => 0) (1 / 2, 0) ⟨(1, 1), 0, ColliderType.Dynamic 1⟩ (0, 0)
        ⟨(1, 1), 0, ColliderType.Static⟩ = some (-(1 / 2), 0)
    ∧ effPos (1 / 2, 0) ⟨(1, 1), 0, ColliderType.Dynamic 1⟩ = (1, 0)
    ∧ overlapTest (fun _ => 0) (effPos (1 / 2, 0) ⟨(1, 1), 0, ColliderType.Dynamic 1⟩)
        ⟨(1, 1), 0, ColliderType.Dynamic 1⟩ (effPos (0, 0) ⟨(1, 1), 0, ColliderType.Static⟩)
        ⟨(1, 1), 0, ColliderType.Static⟩ = none
    ∧ (runPass c1Data c1Grid (fun _ => 0) [0, 1] (fun _ => [0, 1])).events = []
    ∧ (runPass c1Data c1Grid (fun _ => 0) [1, 0] (fun _ => [1, 0])).events = []
    ∧ (runPass c1Data c1Grid (fun _ => 0) [0, 1] (fun _ => [1, 0])).events = []
    ∧ (runPass c1Data c1Grid (fun _ => 0) [1, 0] (fun _ => [0, 1])).events = []
    ∧ finalPositions c1Data (runPass c1Data c1Grid (fun _ => 0) [0, 1] (fun _ => [0, 1])) 1 =
        some (1 / 2, 0)
    ∧ finalPositions c1Data (runPass c1Data c1Grid (fun _ => 0) [0, 1] (fun _ => [0, 1])) 0 =
        some (0, 0)
    ∧ finalPositions c1Data (runPass c1Data c1Grid (fun _ => 0) [1, 0] (fun _ => [1, 0])) 1 =
        some (1 / 2, 0)
    ∧ finalPositions c1Data (runPass c1Data c1Grid (fun _ => 0) [1, 0] (fun _ => [1, 0])) 0 =
        some (0, 0) := by
  with_unfolding_all decide

/-- The detection snapshot of the unequal-mass scenario: entity 0 Dynamic of
mass 4 at (0,0), entity 1 Dynamic of mass 1 at (0.5,0), both unit squares of
radius 0. -/
def c8Data : DetectionData := fun e =>
  if e = 0 then some (((0 : ℚ), (0 : ℚ)), ⟨(1, 1), 0, ColliderType.Dynamic 4⟩)
  else if e = 1 then some (((1 / 2 : ℚ), (0 : ℚ)), ⟨(1, 1), 0, ColliderType.Dynamic 1⟩)
  else none

/-- The grid refreshed with the two entities of the unequal-mass scenario. -/
def c8Grid : SpatialHashGrid :=
  (emptyGrid.insert_or_update 0 (0, 0) ⟨(1, 1), 0, ColliderType.Dynamic 4⟩).insert_or_update 1
    (1 / 2, 0) ⟨(1, 1), 0, ColliderType.Dynamic 1⟩

/-- C8 (what the code actually does in the unequal-mass scenario): at the
snapshot positions the overlap test yields MTV (1/2, 0), from which the
mass-weighted split of the specification would move entity 0 by (0.1,0)
(subtracted) and entity 1 by (0.4,0) (added); but the pass evaluates the two
Dynamic entities at twice their snapshot positions ((0,0) and (1,0)), the
AABB test rejects, no event is emitted for any iteration order, and both
positions are unchanged. -/
theorem c8_unequal_mass_scenario_on_code :
    overlapTest (fun _ => 0) (0, 0) ⟨(1, 1), 0, ColliderType.Dynamic 4⟩ (1 / 2, 0)
        ⟨(1, 1), 0, ColliderType.Dynamic 1⟩ = some (1 / 2, 0)
    ∧ effPos (0, 0) ⟨(1, 1), 0, ColliderType.Dynamic 4⟩ = (0, 0)
    ∧ effPos (1 / 2, 0) ⟨(1, 1), 0, ColliderType.Dynamic 1⟩ = (1, 0)
    ∧ overlapTest (fun _ => 0) (effPos (0, 0) ⟨(1, 1), 0, ColliderType.Dynamic 4⟩)
        ⟨(1, 1), 0, ColliderType.Dynamic 4⟩
        (effPos (1 / 2, 0) ⟨(1, 1), 0, ColliderType.Dynamic 1⟩)
        ⟨(1, 1), 0, ColliderType.Dynamic 1⟩ = none
    ∧ (runPass c8Data c8Grid (fun _ => 0) [0, 1] (fun _ => [0, 1])).events = []
    ∧ (runPass c8Data c8Grid (fun _ => 0) [1, 0] (fun _ => [1, 0])).events = []
    ∧ (runPass c8Data c8Grid (fun _ => 0) [0, 1] (fun _ => [1, 0])).events = []
    ∧ (runPass c8Data c8Grid (fun _ => 0) [1, 0] (fun _ => [0, 1])).events = []
    ∧ finalPositions c8Data (runPass c8Data c8Grid (fun _ => 0) [0, 1] (fun _ => [0, 1])) 0 =
        some (0, 0)
    ∧ finalPositions c8Data (runPass c8Data c8Grid (fun _ => 0) [0, 1] (fun _ => [0, 1])) 1 =
        some (1 / 2, 0)
    ∧ finalPositions c8Data (runPass c8Data c8Grid (fun _ => 0) [1, 0] (fun _ => [1, 0])) 0 =
        some (0, 0)
    ∧ finalPositions c8Data (runPass c8Data c8Grid (fun _ => 0) [1, 0] (fun _ => [1, 0])) 1 =
        some (1 / 2, 0) := by
  with_unfolding_all decide

theorem canonPair_comm (x y : ℕ) : canonPair (x, y) = canonPair (y, x) := by
  unfold canonPair
  dsimp only
  by_cases h1 : x < y
  · rw [if_pos h1, if_neg (by omega)]
  · by_cases h2 : y < x
    · rw [if_neg h1, if_pos h2]
    · have hxy : x = y := by omega
      subst hxy
      rfl

theorem processPair_data_none (data : DetectionData) (sqrtQ : ℚ → ℚ) (a : ℕ) (coll_a : Collider)
    (s : PassState × Vec2Q) (b : ℕ) (h : data b = none) :
    processPair data sqrtQ a coll_a s b = s := by
  unfold processPair
  rw [h]

theorem processPair_self (data : DetectionData) (sqrtQ : ℚ → ℚ) (a : ℕ) (coll_a : Collider)
    (s : PassState × Vec2Q) :
    processPair data sqrtQ a coll_a s a = s := by
  unfold processPair
  cases h : data a with
  | none => rfl
  | some pc => simp

theorem processPair_checked (data : DetectionData) (sqrtQ : ℚ → ℚ) (a : ℕ) (coll_a : Collider)
    (s : PassState × Vec2Q) (b : ℕ) (hab : a ≠ b)
    (h : canonPair (a, b) ∈ s.1.checked) :
    processPair data sqrtQ a coll_a s b = s := by
  unfold processPair
  cases hd : data b with
  | none => rfl
  | some pc =>
      obtain ⟨pb, coll_b⟩ := pc
      dsimp only
      rw [if_neg hab, if_pos h]

theorem foldl_processPair_skip (data : DetectionData) (sqrtQ : ℚ → ℚ) (a : ℕ)
    (coll_a : Collider) (l : List ℕ) (s : PassState × Vec2Q)
    (h : ∀ x ∈ l, data x = none ∨ x = a ∨ (x ≠ a ∧ canonPair (a, x) ∈ s.1.checked)) :
    l.foldl (processPair data sqrtQ a coll_a) s = s := by
  induction l with
  | nil => rfl
  | cons x rest ih =>
      have hstep : processPair data sqrtQ a coll_a s x = s := by
        rcases h x (List.mem_cons_self x rest) with h1 | h2 | ⟨h3, h4⟩
        · exact processPair_data_none data sqrtQ a coll_a s x h1
        · rw [h2]
          exact processPair_self data sqrtQ a coll_a s
        · exact processPair_checked data sqrtQ a coll_a s x (Ne.symm h3) h4
      rw [List.foldl_cons, hstep]
      exact ih fun x hx => h x (List.mem_cons_of_mem _ hx)

theorem prefillDyn_eq (data : DetectionData) (x : ℕ) (px : Vec2Q) (cx : Collider)
    (hdx : data x = some (px, cx)) :
    prefillDyn data x = if cx.ctype.isDynamic then some px else none := by
  unfold prefillDyn
  rw [hdx]

theorem dynRead_prefill_self (data : DetectionData) (x : ℕ) (px : Vec2Q) (cx : Collider)
    (hdx : data x = some (px, cx)) :
    dynRead (prefillDyn data) x px = effPos px cx := by
  unfold dynRead effPos
  rw [prefillDyn_eq data x px cx hdx]
  cases h : cx.ctype.isDynamic <;> simp [h]

theorem overlapTest_ne_none_iff (sqrtQ : ℚ → ℚ) (pa pb : Vec2Q) (ca cb : Collider) :
    overlapTest sqrtQ pa ca pb cb ≠ none ↔
      (¬ ((ca.size.1 + cb.size.1) * (1 / 2) ≤ |pb.1 - pa.1| ∨
          (ca.size.2 + cb.size.2) * (1 / 2) ≤ |pb.2 - pa.2|))
      ∧ ((|pb.1 - pa.1| - (ca.size.1 + cb.size.1) * (1 / 2) + (ca.radius + cb.radius) < 0 ∨
          |pb.2 - pa.2| - (ca.size.2 + cb.size.2) * (1 / 2) + (ca.radius + cb.radius) < 0)
        ∨ ¬ ((ca.radius + cb.radius) * (ca.radius + cb.radius) <
            (|pb.1 - pa.1| - (ca.size.1 + cb.size.1) * (1 / 2) + (ca.radius + cb.radius)) ^ 2 +
            (|pb.2 - pa.2| - (ca.size.2 + cb.size.2) * (1 / 2) + (ca.radius + cb.radius)) ^ 2)) := by
  unfold overlapTest
  dsimp only
  split_ifs with h1 h2 h3 h4
  · exact iff_of_false (fun hne => hne rfl) fun h => h.1 h1
  · exact iff_of_true (Option.some_ne_none _) ⟨h1, Or.inl h2⟩
  · exact iff_of_true (Option.some_ne_none _) ⟨h1, Or.inl h2⟩
  · exact iff_of_false (fun hne => hne rfl) fun h =>
      h.2.elim (fun hc2 => h2 hc2) fun hc3 => hc3 h4
  · exact iff_of_true (Option.some_ne_none _) ⟨h1, Or.inr h4⟩

theorem overlapTest_ne_none_symm (sqrtQ : ℚ → ℚ) (pa pb : Vec2Q) (ca cb : Collider) :
    (overlapTest sqrtQ pb cb pa ca ≠ none) ↔ (overlapTest sqrtQ pa ca pb cb ≠ none) := by
  rw [overlapTest_ne_none_iff, overlapTest_ne_none_iff,
      abs_sub_comm pa.1 pb.1, abs_sub_comm pa.2 pb.2,
      add_comm cb.size.1 ca.size.1, add_comm cb.size.2 ca.size.2,
      add_comm cb.radius ca.radius]

theorem processPair_first_step (data : DetectionData) (sqrtQ : ℚ → ℚ)
    (x y : ℕ) (px py : Vec2Q) (cx cy : Collider) (hxy : x ≠ y)
    (hdx : data x = some (px, cx)) (hdy : data y = some (py, cy))
    (htest : overlapTest sqrtQ (effPos px cx) cx (effPos py cy) cy ≠ none) :
    ∃ d pz, processPair data sqrtQ x cx (⟨∅, prefillDyn data, []⟩, px) y =
      (⟨{canonPair (x, y)}, d, [(x, y)]⟩, pz) := by
  unfold processPair
  rw [hdy]
  dsimp only
  rw [if_neg hxy, if_neg (Finset.not_mem_empty _)]
  rw [dynRead_prefill_self data x px cx hdx, dynRead_prefill_self data y py cy hdy]
  cases ht : overlapTest sqrtQ (effPos px cx) cx (effPos py cy) cy with
  | none => exact absurd ht htest
  | some mtv => cases hcx : cx.ctype <;> cases hcy : cy.ctype <;> exact ⟨_, _, rfl⟩

theorem foldl_processPair_first (data : DetectionData) (sqrtQ : ℚ → ℚ)
    (x y : ℕ) (px py : Vec2Q) (cx cy : Collider) (hxy : x ≠ y)
    (hdx : data x = some (px, cx)) (hdy : data y = some (py, cy))
    (honly : ∀ z, z ≠ x → z ≠ y → data z = none)
    (htest : overlapTest sqrtQ (effPos px cx) cx (effPos py cy) cy ≠ none)
    (l : List ℕ) (hyl : y ∈ l) :
    ∃ d pz, l.foldl (processPair data sqrtQ x cx) (⟨∅, prefillDyn data, []⟩, px) =
      (⟨{canonPair (x, y)}, d, [(x, y)]⟩, pz) := by
  induction l with
  | nil => cases hyl
  | cons z rest ih =>
      by_cases hz : z = y
      · subst hz
        obtain ⟨d, pz, hstep⟩ :=
          processPair_first_step data sqrtQ x z px py cx cy hxy hdx hdy htest
        have hrest : rest.foldl (processPair data sqrtQ x cx)
            (⟨{canonPair (x, z)}, d, [(x, z)]⟩, pz) =
            (⟨{canonPair (x, z)}, d, [(x, z)]⟩, pz) := by
          apply foldl_processPair_skip
          intro w _
          by_cases hwx : w = x
          · exact Or.inr (Or.inl hwx)
          · by_cases hwz : w = z
            · refine Or.inr (Or.inr ⟨hwx, ?_⟩)
              rw [hwz]
              exact Finset.mem_singleton_self _
            · exact Or.inl (honly w hwx hwz)
        rw [List.foldl_cons, hstep, hrest]
        exact ⟨d, pz, rfl⟩
      · have hstep : processPair data sqrtQ x cx (⟨∅, prefillDyn data, []⟩, px) z =
            (⟨∅, prefillDyn data, []⟩, px) := by
          by_cases hzx : z = x
          · rw [hzx]
            exact processPair_self _ _ _ _ _
          · exact processPair_data_none _ _ _ _ _ _ (honly z hzx hz)
        rw [List.foldl_cons, hstep]
        exact ih ((List.mem_cons.1 hyl).resolve_left fun hyz => hz hyz.symm)

theorem processEntity_first (data : DetectionData) (g : SpatialHashGrid) (sqrtQ : ℚ → ℚ)
    (no : ℕ → List ℕ) (x y : ℕ) (px py : Vec2Q) (cx cy : Collider) (hxy : x ≠ y)
    (hdx : data x = some (px, cx)) (hdy : data y = some (py, cy))
    (honly : ∀ z, z ≠ x → z ≠ y → data z = none)
    (hstat : cx.ctype ≠ ColliderType.Static)
    (ns : Finset ℕ) (hiter : g.iter x = some ns) (hyns : y ∈ ns) (hyno : y ∈ no x)
    (htest : overlapTest sqrtQ (effPos px cx) cx (effPos py cy) cy ≠ none) :
    ∃ d, processEntity data g sqrtQ no ⟨∅, prefillDyn data, []⟩ x =
      ⟨{canonPair (x, y)}, d, [(x, y)]⟩ := by
  unfold processEntity
  rw [hdx]
  dsimp only
  rw [if_neg hstat, hiter]
  dsimp only
  obtain ⟨d, pz, hfold⟩ := foldl_processPair_first data sqrtQ x y px py cx cy hxy hdx hdy honly
    htest ((no x).filter fun b => decide (b ∈ ns))
    (List.mem_filter.2 ⟨hyno, by simp [hyns]⟩)
  rw [hfold]
  exact ⟨d, rfl⟩

theorem processEntity_skip (data : DetectionData) (g : SpatialHashGrid) (sqrtQ : ℚ → ℚ)
    (no : ℕ → List ℕ) (st : PassState) (z : ℕ)
    (h : ∀ w, data w = none ∨ w = z ∨ (w ≠ z ∧ canonPair (z, w) ∈ st.checked)) :
    processEntity data g sqrtQ no st z = st := by
  unfold processEntity
  cases hd : data z with
  | none => rfl
  | some pc =>
      obtain ⟨pz, cz⟩ := pc
      dsimp only
      by_cases hs : cz.ctype = ColliderType.Static
      · rw [if_pos hs]
      · rw [if_neg hs]
        cases hi : g.iter z with
        | none => rfl
        | some ns =>
            dsimp only
            rw [foldl_processPair_skip data sqrtQ z cz _ (st, pz) fun w _ => h w]

theorem processEntity_static (data : DetectionData) (g : SpatialHashGrid) (sqrtQ : ℚ → ℚ)
    (no : ℕ → List ℕ) (st : PassState) (z : ℕ) (pz : Vec2Q) (cz : Collider)
    (hd : data z = some (pz, cz)) (hs : cz.ctype = ColliderType.Static) :
    processEntity data g sqrtQ no st z = st := by
  unfold processEntity
  rw [hd]
  dsimp only
  rw [if_pos hs]

/-- C3: for two distinct entities that are in each other's neighbour sets,
where the pass's overlap test (at the positions the pass reads: snapshot plus
pending override) produces an MTV, exactly one `CollisionEvent` is emitted for
the unordered pair — whichever of the two is visited first, and regardless of
how the neighbour sets are enumerated (hence of how many grid cells the two
entities share). -/
theorem c3_pair_dedup (a b : ℕ) (pa pb : Vec2Q) (ca cb : Collider)
    (data : DetectionData) (g : SpatialHashGrid) (sqrtQ : ℚ → ℚ)
    (hdata : data = fun e => if e = a then some (pa, ca)
      else if e = b then some (pb, cb) else none)
    (hab : a ≠ b) (hca : ca.ctype ≠ ColliderType.Static)
    (nsa nsb : Finset ℕ)
    (hia : g.iter a = some nsa) (hbnsa : b ∈ nsa)
    (hib : g.iter b = some nsb) (hansb : a ∈ nsb)
    (htest : overlapTest sqrtQ (effPos pa ca) ca (effPos pb cb) cb ≠ none)
    (eo : List ℕ) (heo : eo = [a, b] ∨ eo = [b, a])
    (no : ℕ → List ℕ) (hbno : b ∈ no a) (hano : a ∈ no b) :
    ((runPass data g sqrtQ eo no).events.map canonPair).count (canonPair (a, b)) = 1 := by
  have hda : data a = some (pa, ca) := by
    rw [hdata]
    simp
  have hdb : data b = some (pb, cb) := by
    rw [hdata]
    simp [Ne.symm hab]
  have honly : ∀ z, z ≠ a → z ≠ b → data z = none := by
    intro z hza hzb
    rw [hdata]
    simp [hza, hzb]
  have htestb : overlapTest sqrtQ (effPos pb cb) cb (effPos pa ca) ca ≠ none :=
    (overlapTest_ne_none_symm sqrtQ (effPos pa ca) (effPos pb cb) ca cb).2 htest
  rcases heo with heo | heo <;> subst heo
  · obtain ⟨d, h1⟩ := processEntity_first data g sqrtQ no a b pa pb ca cb hab hda hdb honly
      hca nsa hia hbnsa hbno htest
    have h2 : processEntity data g sqrtQ no ⟨{canonPair (a, b)}, d, [(a, b)]⟩ b =
        ⟨{canonPair (a, b)}, d, [(a, b)]⟩ := by
      apply processEntity_skip
      intro w
      by_cases hwb : w = b
      · exact Or.inr (Or.inl hwb)
      · by_cases hwa : w = a
        · refine Or.inr (Or.inr ⟨?_, ?_⟩)
          · rw [hwa]
            exact hab
          · rw [hwa, canonPair_comm b a]
            exact Finset.mem_singleton_self _
        · exact Or.inl (honly w hwa hwb)
    unfold runPass
    simp only [List.foldl_cons, List.foldl_nil]
    rw [h1, h2]
    simp
  · by_cases hcb : cb.ctype = ColliderType.Static
    · have h0 : processEntity data g sqrtQ no ⟨∅, prefillDyn data, []⟩ b =
          ⟨∅, prefillDyn data, []⟩ :=
        processEntity_static data g sqrtQ no _ b pb cb hdb hcb
      obtain ⟨d, h1⟩ := processEntity_first data g sqrtQ no a b pa pb ca cb hab hda hdb honly
        hca nsa hia hbnsa hbno htest
      unfold runPass
      simp only [List.foldl_cons, List.foldl_nil]
      rw [h0, h1]
      simp
    · obtain ⟨d, h1⟩ := processEntity_first data g sqrtQ no b a pb pa cb ca (Ne.symm hab)
        hdb hda (fun z hzb hza => honly z hza hzb) hcb nsb hib hansb hano htestb
      have h2 : processEntity data g sqrtQ no ⟨{canonPair (b, a)}, d, [(b, a)]⟩ a =
          ⟨{canonPair (b, a)}, d, [(b, a)]⟩ := by
        apply processEntity_skip
        intro w
        by_cases hwa : w = a
        · exact Or.inr (Or.inl hwa)
        · by_cases hwb : w = b
          · refine Or.inr (Or.inr ⟨?_, ?_⟩)
            · rw [hwb]
              exact Ne.symm hab
            · rw [hwb, canonPair_comm a b]
              exact Finset.mem_singleton_self _
          · exact Or.inl (honly w hwa hwb)
      unfold runPass
      simp only [List.foldl_cons, List.foldl_nil]
      rw [h1, h2]
      dsimp only
      rw [canonPair_comm a b]
      simp

/-- The detection snapshot for the C3 witness: two overlapping unit Sensor
squares, entity 0 at (0,0) and entity 1 at (0.5,0). -/
def c3WData : DetectionData := fun e =>
  if e = 0 then some (((0 : ℚ), (0 : ℚ)), ⟨(1, 1), 0, ColliderType.Sensor⟩)
  else if e = 1 then some (((1 / 2 : ℚ), (0 : ℚ)), ⟨(1, 1), 0, ColliderType.Sensor⟩)
  else none

/-- A small grid for the C3 witness in which entities 0 and 1 share the cell
(0,0). -/
def c3WGrid : SpatialHashGrid :=
  ⟨20, fun c => if c = (0, 0) then some {0, 1} else none,
    fun e => if e ≤ 1 then some {((0 : ℤ), (0 : ℤ))} else none⟩

/-- Witness for C3: the two overlapping sensors above, visited in the order
`[0, 1]`, produce exactly one event for the unordered pair. -/
theorem c3_pair_dedup_witness :
    (c3WData = fun e =>
      if e = 0 then some (((0 : ℚ), (0 : ℚ)), ⟨(1, 1), 0, ColliderType.Sensor⟩)
      else if e = 1 then some (((1 / 2 : ℚ), (0 : ℚ)), ⟨(1, 1), 0, ColliderType.Sensor⟩)
      else none)
    ∧ (0 : ℕ) ≠ 1
    ∧ (⟨(1, 1), 0, ColliderType.Sensor⟩ : Collider).ctype ≠ ColliderType.Static
    ∧ c3WGrid.iter 0 = some ((c3WGrid.iter 0).getD ∅)
    ∧ 1 ∈ (c3WGrid.iter 0).getD ∅
    ∧ c3WGrid.iter 1 = some ((c3WGrid.iter 1).getD ∅)
    ∧ 0 ∈ (c3WGrid.iter 1).getD ∅
    ∧ overlapTest (fun _ => 0) (effPos (0, 0) ⟨(1, 1), 0, ColliderType.Sensor⟩)
        ⟨(1, 1), 0, ColliderType.Sensor⟩ (effPos (1 / 2, 0) ⟨(1, 1), 0, ColliderType.Sensor⟩)
        ⟨(1, 1), 0, ColliderType.Sensor⟩ ≠ none
    ∧ (([0, 1] : List ℕ) = [0, 1] ∨ ([0, 1] : List ℕ) = [1, 0])
    ∧ (1 : ℕ) ∈ ([0, 1] : List ℕ)
    ∧ (0 : ℕ) ∈ ([0, 1] : List ℕ)
    ∧ ((runPass c3WData c3WGrid (fun _ => 0) [0, 1] (fun _ => [0, 1])).events.map
        canonPair).count (canonPair (0, 1)) = 1 :=
  ⟨rfl, by decide, by decide,
    by with_unfolding_all rfl, by with_unfolding_all decide,
    by with_unfolding_all rfl, by with_unfolding_all decide,
    by with_unfolding_all decide,
    Or.inl rfl, by decide, by decide,
    c3_pair_dedup 0 1 (0, 0) (1 / 2, 0) ⟨(1, 1), 0, ColliderType.Sensor⟩
      ⟨(1, 1), 0, ColliderType.Sensor⟩ c3WData c3WGrid (fun _ => 0) rfl (by decide) (by decide)
      ((c3WGrid.iter 0).getD ∅) ((c3WGrid.iter 1).getD ∅)
      (by with_unfolding_all rfl) (by with_unfolding_all decide)
      (by with_unfolding_all rfl) (by with_unfolding_all decide)
      (by with_unfolding_all decide)
      [0, 1] (Or.inl rfl) (fun _ => [0, 1]) (by decide) (by decide)⟩
